import Mathlib

/-!
Verification of the orc job-orchestration engine specification against the
repository's code. The repository currently contains the configuration
structs (`pkg/config/config.go`), the HTTP entry point (`main` with a chi
router), and an `api` package with `helloHandler`; the orchestration core
(Store, Queue, Worker Pool, Scheduler, Registry) described by the spec is
not yet present in the source tree, so those components are modelled from
the spec's own words and marked as such on each definition.
-/

namespace Orc

/-! ## Data model (spec §3) -/

/-- Job status, one of the seven lifecycle states listed in spec §3. -/
inductive Status where
  | created
  | queued
  | running
  | succeeded
  | failed
  | timedOut
  | cancelled
deriving DecidableEq, Repr

/-- Terminal statuses per the glossary: Succeeded, Failed, TimedOut, Cancelled. -/
def Status.isTerminal : Status → Bool
  | .succeeded => true
  | .failed => true
  | .timedOut => true
  | .cancelled => true
  | _ => false

/-- Modelled from the spec: the Job record of §3 (the Go Job struct is not in
the source tree). Timestamps are naturals; `timeout` is optional, defaulting
from engine configuration when unset. -/
structure Job where
  id : Nat
  kind : String
  payload : String
  status : Status
  attempt : Nat
  maxAttempts : Nat
  timeout : Option Int
  createdAt : Nat
deriving DecidableEq, Repr

/-! ## Configuration (`pkg/config/config.go`) -/

/-- The `EngineConfig` struct from `pkg/config/config.go`: `WorkerCount int`
and `DefaultTimeout int // seconds`. Go `int` is embedded as `Int`. -/
structure EngineConfig where
  WorkerCount : Int
  DefaultTimeout : Int
deriving DecidableEq, Repr

/-- Modelled from the spec: §6 requires `WorkerCount` (pool size) to be ≥ 1
for any configuration the engine consumes; the loading/validation mechanism
is out of the source tree. -/
def validEngineConfig (c : EngineConfig) : Bool :=
  1 ≤ c.WorkerCount

/-- Modelled from the spec: §6 — `DefaultTimeout` (seconds) is applied to
jobs that do not specify their own timeout. -/
def effectiveTimeout (c : EngineConfig) (jobTimeout : Option Int) : Int :=
  jobTimeout.getD c.DefaultTimeout

/-! ## Queue (spec §4.2) -/

/-- Modelled from the spec: §4.2 `Enqueue(id)` on the underlying FIFO list of
ready job ids — idempotent when the id is already queued (no-op, not an
error), otherwise appended in FIFO position. -/
def enqueueList (q : List Nat) (id : Nat) : List Nat :=
  if id ∈ q then q else q ++ [id]

/-- Result of a `Dequeue` call (spec §4.2): a delivered job id, the `Closed`
signal, or (in this pure model) `blocked`, standing for a call that suspends
because the queue is open but empty. -/
inductive DequeueResult where
  | item (id : Nat)
  | closedSig
  | blocked
deriving DecidableEq, Repr

/-- Modelled from the spec: the in-memory Queue of §4.2, a FIFO list of ready
job ids plus a closed flag set by `Close()`. -/
structure Queue where
  items : List Nat
  closed : Bool
deriving DecidableEq, Repr

/-- Modelled from the spec: §4.2 `Enqueue(id)` on the Queue. -/
def Queue.enqueue (q : Queue) (id : Nat) : Queue :=
  { q with items := enqueueList q.items id }

/-- Modelled from the spec: §4.2 `Dequeue()` — returns the `Closed` signal
once the queue is closed, otherwise delivers the FIFO head or blocks. -/
def Queue.dequeue (q : Queue) : DequeueResult × Queue :=
  if q.closed then (.closedSig, q)
  else
    match q.items with
    | [] => (.blocked, q)
    | id :: rest => (.item id, { q with items := rest })

/-- Modelled from the spec: §4.2 `Close()` — marks the queue closed so that
all pending and future `Dequeue` calls return the closed signal. -/
def Queue.close (q : Queue) : Queue :=
  { q with closed := true }

/-- A client-visible queue operation, used to state that `Close` is sticky
across any later sequence of operations. -/
inductive QueueOp where
  | enq (id : Nat)
  | deq
  | close
deriving DecidableEq, Repr

/-- Apply one queue operation to the queue state. -/
def Queue.applyOp (q : Queue) : QueueOp → Queue
  | .enq id => q.enqueue id
  | .deq => (q.dequeue).2
  | .close => q.close

/-- Apply a sequence of queue operations left to right. -/
def Queue.applyOps (q : Queue) : List QueueOp → Queue
  | [] => q
  | op :: ops => (q.applyOp op).applyOps ops

/-! ## Scheduler submission (spec §4.4) -/

/-- The per-submission options of §4.4: retry ceiling and optional timeout. -/
structure SubmitOptions where
  maxAttempts : Nat
  timeout : Option Int
deriving DecidableEq, Repr

/-- The state `Submit` touches: the persisted Job Store and the ready queue. -/
structure SchedState where
  store : List Job
  queue : List Nat
deriving DecidableEq, Repr

/-- Result of a `Submit` call: the new job id, or the `UnknownKind` error. -/
inductive SubmitResult where
  | ok (id : Nat)
  | unknownKind
deriving DecidableEq, Repr

/-- Modelled from the spec: §4.4 `Submit(kind, payload, options)` — validates
`kind` against the handler registry (a set of registered kind strings),
constructs a Job with `Created` status, persists it, enqueues it and returns
the job id; fails with `UnknownKind`, before persistence, if no handler is
registered. -/
def Scheduler.submit (registry : List String) (st : SchedState)
    (kind : String) (payload : String) (opts : SubmitOptions)
    (nextId : Nat) (now : Nat) : SubmitResult × SchedState :=
  if kind ∈ registry then
    let j : Job :=
      { id := nextId, kind := kind, payload := payload, status := .created,
        attempt := 0, maxAttempts := opts.maxAttempts,
        timeout := opts.timeout, createdAt := now }
    (.ok nextId, { store := j :: st.store, queue := enqueueList st.queue nextId })
  else
    (.unknownKind, st)

/-! ## Scheduler transitions and retry policy (spec §4.3, §4.4) -/

/-- Modelled from the spec: the Scheduler-mediated transitions of one job's
`(status, attempt)` pair along §4.3's state machine — submit-enqueue,
dispatch (which increments the attempt count, §3), the three completion
outcomes, cancellation of a queued or running job, the crash-recovery reset
of Running back to Queued with attempt unchanged (§4.4 `Recover`), and the
retry re-queue for Failed/TimedOut when `attempt < max` (§4.4). `max` is the
job's retry ceiling. -/
inductive SchedStep (max : Nat) : Status × Nat → Status × Nat → Prop where
  | submitQueue (a : Nat) : SchedStep max (.created, a) (.queued, a)
  | dispatch (a : Nat) : SchedStep max (.queued, a) (.running, a + 1)
  | succeed (a : Nat) : SchedStep max (.running, a) (.succeeded, a)
  | fail (a : Nat) : SchedStep max (.running, a) (.failed, a)
  | timeOut (a : Nat) : SchedStep max (.running, a) (.timedOut, a)
  | cancelQueued (a : Nat) : SchedStep max (.queued, a) (.cancelled, a)
  | cancelRunning (a : Nat) : SchedStep max (.running, a) (.cancelled, a)
  | recoverReset (a : Nat) : SchedStep max (.running, a) (.queued, a)
  | retryFailed (a : Nat) : a < max → SchedStep max (.failed, a) (.queued, a)
  | retryTimedOut (a : Nat) : a < max → SchedStep max (.timedOut, a) (.queued, a)

/-- Outcome of executing one attempt of a job's handler: success, a handler
error (recorded as `Failed`), or deadline expiry (recorded as `TimedOut`). -/
inductive Outcome where
  | success
  | handlerError
  | timeout
deriving DecidableEq, Repr

/-- Modelled from the spec: the Scheduler's transition when an attempt
completes (§4.4 retry policy). `attempt` counts dispatches (§3: incremented
on each dispatch), so at completion time it already counts the attempt that
just finished; on `Failed`/`TimedOut` with `attempt < maxAttempts` the job is
transitioned to `Queued` and re-enqueued (the Boolean), otherwise the
terminal status stands. -/
def onCompletion (j : Job) (out : Outcome) : Job × Bool :=
  match out with
  | .success => ({ j with status := .succeeded }, false)
  | .handlerError =>
    if j.attempt < j.maxAttempts then ({ j with status := .queued }, true)
    else ({ j with status := .failed }, false)
  | .timeout =>
    if j.attempt < j.maxAttempts then ({ j with status := .queued }, true)
    else ({ j with status := .timedOut }, false)

/-- Modelled from the spec: repeated dispatch of one job under the retry
policy. Each dispatch increments the attempt counter (§3); the outcome list
gives the handler's behaviour on successive attempts. Returns the final
`(status, attempt)`; an exhausted outcome list leaves the job queued. -/
def runAttempts (maxAttempts : Nat) : Nat → List Outcome → Status × Nat
  | attempt, [] => (.queued, attempt)
  | attempt, out :: rest =>
    match out with
    | .success => (.succeeded, attempt + 1)
    | .handlerError =>
      if attempt + 1 < maxAttempts then runAttempts maxAttempts (attempt + 1) rest
      else (.failed, attempt + 1)
    | .timeout =>
      if attempt + 1 < maxAttempts then runAttempts maxAttempts (attempt + 1) rest
      else (.timedOut, attempt + 1)

/-! ## Startup recovery (spec §4.4 `Recover`) -/

/-- The ordering on jobs by creation time used when `Recover()` re-enqueues. -/
def byCreatedAt (a b : Job) : Prop :=
  a.createdAt ≤ b.createdAt

instance : DecidableRel byCreatedAt := fun a b => Nat.decLe a.createdAt b.createdAt

instance : IsTotal Job byCreatedAt := ⟨fun a b => Nat.le_total a.createdAt b.createdAt⟩

instance : IsTrans Job byCreatedAt := ⟨fun _ _ _ => Nat.le_trans⟩

/-- Modelled from the spec: §4.1 `ListByStatus(status)` over a Store held as
a list of job records. -/
def listByStatus (store : List Job) (s : Status) : List Job :=
  store.filter (fun j => j.status = s)

/-- Modelled from the spec: §4.4 `Recover` resets a crash-remnant `Running`
job back to `Queued` with `attempt` unchanged; other jobs are untouched. -/
def resetRunning (j : Job) : Job :=
  if j.status = .running then { j with status := .queued } else j

/-- Modelled from the spec: §4.4 `Recover()` — lists all `Queued` and
`Running` jobs from the Store, resets the `Running` ones back to `Queued`
(attempt unchanged), and re-enqueues the union of both sets in `createdAt`
order. Returns the updated store and the recovered jobs in enqueue order. -/
def recover (store : List Job) : List Job × List Job :=
  (store.map resetRunning,
    List.insertionSort byCreatedAt
      (listByStatus store .queued ++ listByStatus store .running))

/-- The rebuilt ready queue after recovery: the recovered jobs' ids in
enqueue order. -/
def recoverQueue (store : List Job) : List Nat :=
  ((recover store).2).map (fun j => j.id)

/-! ## Worker leases (spec §3, §4.3, §5) -/

/-- Modelled from the spec: the engine state visible to the lease invariant —
the shared ready queue of job ids and the currently held
`(worker, job)` leases. -/
structure EngState where
  queue : List Nat
  leases : List (Nat × Nat)
deriving DecidableEq, Repr

/-- Modelled from the spec: the engine's atomic steps. §5 serializes the
state-mutating operations per job id, so an id is (re-)enqueued only when it
is neither already queued nor currently leased; §4.3 combines lease
acquisition with the `Queued → Running` transition, so a dequeue atomically
removes the FIFO head and grants one worker the lease; a release drops a
held lease on completion, timeout reclaim, or shutdown. -/
inductive EStep : EngState → EngState → Prop where
  | enq (s : EngState) (id : Nat) :
      id ∉ s.queue → (∀ w, (w, id) ∉ s.leases) →
      EStep s ⟨s.queue ++ [id], s.leases⟩
  | deq (s : EngState) (w id : Nat) (rest : List Nat) :
      s.queue = id :: rest →
      EStep s ⟨rest, (w, id) :: s.leases⟩
  | release (s : EngState) (w id : Nat) :
      EStep s ⟨s.queue, s.leases.filter (fun p => p ≠ (w, id))⟩

/-- The engine's initial state: nothing queued, no leases held. -/
def EngState.init : EngState :=
  ⟨[], []⟩

/-- States the engine can reach from startup through its atomic steps. -/
def Reachable (s : EngState) : Prop :=
  Relation.ReflTransGen EStep EngState.init s

/-- The lease invariant: no job id is leased twice, the queue has no
duplicates, and no queued id is simultaneously leased. -/
def LeaseInv (s : EngState) : Prop :=
  (s.leases.map Prod.snd).Nodup ∧ s.queue.Nodup ∧
    ∀ id ∈ s.queue, ∀ w, (w, id) ∉ s.leases

/-! ## HTTP handlers (the code actually present in the source tree) -/

/-- An HTTP request as seen by a Go handler: only the parts the embedded
handlers could possibly consult. -/
structure HTTPRequest where
  method : String
  path : String
  body : String
deriving DecidableEq, Repr

/-- The anonymous handler installed by `main` for `GET "/"`:
`w.Write([]byte("welcome"))`. The returned string is the full body written
to the response writer. -/
def rootHandler (_r : HTTPRequest) : String :=
  "welcome"

/-- `helloHandler` from the `api` package: `fmt.Fprintln(w, "Hello World")`,
which writes the line followed by a newline. -/
def helloHandler (_r : HTTPRequest) : String :=
  "Hello World\n"

end Orc

namespace Orc

/-! ## Theorems -/

/-- C6: `Enqueue` is idempotent — for a job id already present the queue is
unchanged (a no-op, not an error), enqueueing twice equals enqueueing once,
and a fresh id is appended in FIFO position. -/
theorem enqueue_idempotent :
    ∀ (q : List Nat) (id : Nat),
      (id ∈ q → enqueueList q id = q) ∧
      enqueueList (enqueueList q id) id = enqueueList q id ∧
      (id ∉ q → enqueueList q id = q ++ [id]) := by
  intro q id
  refine ⟨fun h => by simp [enqueueList, h], ?_, fun h => by simp [enqueueList, h]⟩
  by_cases h : id ∈ q
  · simp [enqueueList, h]
  · simp [enqueueList, h]

/-- Witness for C6 at a concrete queue and id. -/
theorem enqueue_idempotent_witness :
    ((7 ∈ [3, 7] → enqueueList [3, 7] 7 = [3, 7]) ∧
      enqueueList (enqueueList [3, 7] 7) 7 = enqueueList [3, 7] 7 ∧
      (7 ∉ [3, 7] → enqueueList [3, 7] 7 = [3, 7] ++ [7])) :=
  enqueue_idempotent [3, 7] 7

/-- C8: any engine configuration accepted as valid has `WorkerCount ≥ 1`, and
the timeout applied to a job is its own when specified and the configured
`DefaultTimeout` (an integer number of seconds, as `EngineConfig` declares)
when not. -/
theorem engineConfig_workerCount_defaultTimeout :
    ∀ c : EngineConfig,
      (validEngineConfig c = true → 1 ≤ c.WorkerCount) ∧
      effectiveTimeout c none = c.DefaultTimeout ∧
      (∀ t : Int, effectiveTimeout c (some t) = t) := by
  intro c
  refine ⟨fun h => by simpa [validEngineConfig] using h, rfl, fun t => rfl⟩

/-- Witness for C8 at a concrete configuration. -/
theorem engineConfig_workerCount_defaultTimeout_witness :
    (validEngineConfig ⟨4, 30⟩ = true → 1 ≤ (⟨4, 30⟩ : EngineConfig).WorkerCount) ∧
      effectiveTimeout ⟨4, 30⟩ none = (⟨4, 30⟩ : EngineConfig).DefaultTimeout ∧
      (∀ t : Int, effectiveTimeout ⟨4, 30⟩ (some t) = t) :=
  engineConfig_workerCount_defaultTimeout ⟨4, 30⟩

/-- Applying one operation to a closed queue leaves it closed. -/
theorem Queue.closed_applyOp (q : Queue) (op : QueueOp) (h : q.closed = true) :
    (q.applyOp op).closed = true := by
  cases op with
  | enq id => simpa [Queue.applyOp, Queue.enqueue] using h
  | deq => simp [Queue.applyOp, Queue.dequeue, h]
  | close => simp [Queue.applyOp, Queue.close]

/-- Applying any sequence of operations to a closed queue leaves it closed. -/
theorem Queue.closed_applyOps (q : Queue) (ops : List QueueOp)
    (h : q.closed = true) : (q.applyOps ops).closed = true := by
  induction ops generalizing q with
  | nil => simpa [Queue.applyOps] using h
  | cons op ops ih => exact ih _ (q.closed_applyOp op h)

/-- C7: after `Close()`, a pending `Dequeue` returns the closed signal, every
future `Dequeue` — after any further sequence of operations — also returns
the closed signal and never a job id, and `Close` only sets the flag, leaving
undelivered items (and a fortiori items already delivered before the close)
untouched. -/
theorem close_dequeue_closedSig :
    ∀ (q : Queue) (ops : List QueueOp),
      ((q.close).dequeue).1 = .closedSig ∧
      (((q.close).applyOps ops).dequeue).1 = .closedSig ∧
      (∀ id, (((q.close).applyOps ops).dequeue).1 ≠ .item id) ∧
      (q.close).items = q.items := by
  intro q ops
  have hc : (q.close).closed = true := rfl
  have hs : ((q.close).applyOps ops).closed = true :=
    Queue.closed_applyOps _ ops hc
  refine ⟨by simp [Queue.dequeue, hc], by simp [Queue.dequeue, hs], ?_, rfl⟩
  intro id
  simp [Queue.dequeue, hs]

/-- Witness for C7 at a concrete queue and operation sequence. -/
theorem close_dequeue_closedSig_witness :
    (((Queue.mk [1, 2] false).close).dequeue).1 = .closedSig ∧
      ((((Queue.mk [1, 2] false).close).applyOps [.enq 9, .deq]).dequeue).1
        = .closedSig ∧
      (∀ id,
        ((((Queue.mk [1, 2] false).close).applyOps [.enq 9, .deq]).dequeue).1
          ≠ .item id) ∧
      ((Queue.mk [1, 2] false).close).items = (Queue.mk [1, 2] false).items :=
  close_dequeue_closedSig (Queue.mk [1, 2] false) [.enq 9, .deq]

/-- C3: `Submit` with an unregistered kind returns `UnknownKind` and leaves
the Store (and queue) unchanged; with a registered kind it persists a Job
with `Created` status, enqueues its id, and returns the job id. -/
theorem submit_unknownKind_or_created :
    ∀ (registry : List String) (st : SchedState) (kind payload : String)
      (opts : SubmitOptions) (nextId now : Nat),
      (kind ∉ registry →
        Scheduler.submit registry st kind payload opts nextId now
          = (.unknownKind, st)) ∧
      (kind ∈ registry →
        ∃ j : Job,
          Scheduler.submit registry st kind payload opts nextId now
            = (.ok nextId,
               { store := j :: st.store, queue := enqueueList st.queue nextId }) ∧
          j.status = .created ∧ j.id = nextId ∧ j.kind = kind ∧
          j.payload = payload ∧ j.attempt = 0) := by
  intro registry st kind payload opts nextId now
  constructor
  · intro h
    simp [Scheduler.submit, h]
  · intro h
    refine ⟨{ id := nextId, kind := kind, payload := payload,
              status := .created, attempt := 0,
              maxAttempts := opts.maxAttempts, timeout := opts.timeout,
              createdAt := now }, ?_, rfl, rfl, rfl, rfl, rfl⟩
    simp [Scheduler.submit, h]

/-- Witness for C3 at concrete inputs: a registered and an unregistered kind
behave as claimed on a concrete state. -/
theorem submit_unknownKind_or_created_witness :
    (("ghost" ∉ ["email"] →
        Scheduler.submit ["email"] ⟨[], []⟩ "ghost" "p" ⟨3, none⟩ 1 0
          = (.unknownKind, ⟨[], []⟩)) ∧
      ("ghost" ∈ ["email"] →
        ∃ j : Job,
          Scheduler.submit ["email"] ⟨[], []⟩ "ghost" "p" ⟨3, none⟩ 1 0
            = (.ok 1, { store := j :: ([] : List Job),
                        queue := enqueueList [] 1 }) ∧
          j.status = .created ∧ j.id = 1 ∧ j.kind = "ghost" ∧
          j.payload = "p" ∧ j.attempt = 0)) :=
  submit_unknownKind_or_created ["email"] ⟨[], []⟩ "ghost" "p" ⟨3, none⟩ 1 0

/-- C9: the handler `main` installs for `GET "/"` writes exactly the body
`"welcome"`, whatever the request contains. -/
theorem rootHandler_writes_welcome :
    ∀ r : HTTPRequest, rootHandler r = "welcome" := fun _ => rfl

/-- A single Scheduler step never decreases the attempt counter. -/
theorem SchedStep.attempt_le {max : Nat} {s t : Status × Nat}
    (h : SchedStep max s t) : s.2 ≤ t.2 := by
  cases h <;> simp

/-- C2: along any sequence of Scheduler-mediated transitions the attempt
counter is monotonically non-decreasing, and the only step out of a terminal
status is the retry re-queue of a Failed or TimedOut job (with
`attempt < max`), which moves it to Queued with attempt unchanged — Succeeded
and Cancelled admit no outgoing step at all. -/
theorem attempt_monotone_terminal_stable :
    ∀ (max : Nat) (s t : Status × Nat),
      (Relation.ReflTransGen (SchedStep max) s t → s.2 ≤ t.2) ∧
      (SchedStep max s t → s.1.isTerminal = true →
        (s.1 = .failed ∨ s.1 = .timedOut) ∧ t = (.queued, s.2) ∧ s.2 < max) := by
  intro max s t
  constructor
  · intro h
    induction h with
    | refl => exact le_refl _
    | tail _ hstep ih => exact le_trans ih hstep.attempt_le
  · intro h hterm
    cases h <;> simp [Status.isTerminal] at hterm ⊢
    · next a ha => exact ha
    · next a ha => exact ha

/-- Witness for C2: a concrete retry step out of `Failed` at attempt 1 with
`max = 2`, checking both conjuncts at that instance. -/
theorem attempt_monotone_terminal_stable_witness :
    ((1 : Nat) ≤ 1) ∧
      (((.failed : Status) = .failed ∨ (.failed : Status) = .timedOut) ∧
        ((.queued : Status), (1 : Nat)) = ((.queued : Status), (1 : Nat)) ∧
        1 < 2) :=
  ⟨(attempt_monotone_terminal_stable 2 (.failed, 1) (.queued, 1)).1
      (Relation.ReflTransGen.single (SchedStep.retryFailed 1 (by decide))),
    (attempt_monotone_terminal_stable 2 (.failed, 1) (.queued, 1)).2
      (SchedStep.retryFailed 1 (by decide)) rfl⟩

/-- A run of `k + 1` consecutive failures starting at attempt `a` with
`a + (k + 1) = max` ends `Failed` at attempt `max`. -/
theorem runAttempts_all_failures (max : Nat) :
    ∀ (k a : Nat), a + (k + 1) = max →
      runAttempts max a (List.replicate (k + 1) .handlerError) = (.failed, max) := by
  intro k
  induction k with
  | zero =>
    intro a ha
    simp only [List.replicate, runAttempts]
    rw [if_neg (by omega)]
    exact congrArg _ ha
  | succ k ih =>
    intro a ha
    simp only [List.replicate, runAttempts]
    rw [if_pos (by omega)]
    exact ih (a + 1) (by omega)

/-- A run of `k` consecutive failures then a success, starting at attempt `a`
with `a + k < max`, ends `Succeeded` at attempt `a + k + 1`. -/
theorem runAttempts_failures_then_success (max : Nat) :
    ∀ (k a : Nat), a + k < max →
      runAttempts max a (List.replicate k .handlerError ++ [.success])
        = (.succeeded, a + k + 1) := by
  intro k
  induction k with
  | zero =>
    intro a _
    simp [runAttempts]
  | succ k ih =>
    intro a ha
    simp only [List.replicate, List.cons_append, runAttempts]
    rw [if_pos (by omega)]
    have h3 : a + 1 + k + 1 = a + (k + 1) + 1 := by omega
    rw [← h3]
    exact ih (a + 1) (by omega)

/-- C4: on a `Failed` or `TimedOut` attempt the Scheduler re-queues the job
exactly when `attempt < maxAttempts` and otherwise lets the terminal status
stand; consequently a handler failing `maxAttempts` times in a row ends
`Failed` with `attempt = maxAttempts`, and one failing `maxAttempts - 1`
times then succeeding ends `Succeeded` (with `attempt = maxAttempts`). -/
theorem retryPolicy_correct :
    (∀ j : Job, j.attempt < j.maxAttempts →
      onCompletion j .handlerError = ({ j with status := .queued }, true) ∧
      onCompletion j .timeout = ({ j with status := .queued }, true)) ∧
    (∀ j : Job, j.maxAttempts ≤ j.attempt →
      onCompletion j .handlerError = ({ j with status := .failed }, false) ∧
      onCompletion j .timeout = ({ j with status := .timedOut }, false)) ∧
    (∀ max : Nat, 1 ≤ max →
      runAttempts max 0 (List.replicate max .handlerError) = (.failed, max)) ∧
    (∀ max : Nat, 1 ≤ max →
      runAttempts max 0 (List.replicate (max - 1) .handlerError ++ [.success])
        = (.succeeded, max)) := by
  refine ⟨?_, ?_, ?_, ?_⟩
  · intro j hj
    constructor <;> simp [onCompletion, hj]
  · intro j hj
    constructor <;> simp [onCompletion, Nat.not_lt.mpr hj]
  · intro max hmax
    obtain ⟨k, rfl⟩ : ∃ k, max = k + 1 := ⟨max - 1, by omega⟩
    exact runAttempts_all_failures (k + 1) k 0 (by omega)
  · intro max hmax
    have h := runAttempts_failures_then_success max (max - 1) 0 (by omega)
    rw [h]
    exact congrArg _ (by omega)

/-- Witness for C4 at `maxAttempts = 2` and a concrete job. -/
theorem retryPolicy_correct_witness :
    (onCompletion ⟨1, "k", "p", .running, 1, 2, none, 0⟩ .handlerError
        = ({ (⟨1, "k", "p", .running, 1, 2, none, 0⟩ : Job) with
              status := .queued }, true) ∧
      onCompletion ⟨1, "k", "p", .running, 1, 2, none, 0⟩ .timeout
        = ({ (⟨1, "k", "p", .running, 1, 2, none, 0⟩ : Job) with
              status := .queued }, true)) ∧
      (onCompletion ⟨1, "k", "p", .running, 2, 2, none, 0⟩ .handlerError
          = ({ (⟨1, "k", "p", .running, 2, 2, none, 0⟩ : Job) with
                status := .failed }, false) ∧
        onCompletion ⟨1, "k", "p", .running, 2, 2, none, 0⟩ .timeout
          = ({ (⟨1, "k", "p", .running, 2, 2, none, 0⟩ : Job) with
                status := .timedOut }, false)) ∧
      runAttempts 2 0 (List.replicate 2 .handlerError) = (.failed, 2) ∧
      runAttempts 2 0 (List.replicate (2 - 1) .handlerError ++ [.success])
        = (.succeeded, 2) :=
  ⟨retryPolicy_correct.1 ⟨1, "k", "p", .running, 1, 2, none, 0⟩ (by decide),
    retryPolicy_correct.2.1 ⟨1, "k", "p", .running, 2, 2, none, 0⟩ (by decide),
    retryPolicy_correct.2.2.1 2 (by decide),
    retryPolicy_correct.2.2.2 2 (by decide)⟩

/-- C5: `Recover()` re-enqueues exactly the jobs that were `Queued` or
`Running` (so no submitted job is lost across a crash), resets `Running`
jobs back to `Queued` leaving every other job, every attempt count and every
id unchanged, and the rebuilt queue is in `createdAt` order. -/
theorem recover_no_job_lost :
    ∀ store : List Job,
      (∀ j ∈ store, (j.status = .queued ∨ j.status = .running) →
        j ∈ (recover store).2 ∧ j.id ∈ recoverQueue store) ∧
      (∀ j ∈ (recover store).2,
        j ∈ store ∧ (j.status = .queued ∨ j.status = .running)) ∧
      (recover store).1 = store.map resetRunning ∧
      (∀ j : Job, j.status = .running →
        resetRunning j = { j with status := .queued }) ∧
      (∀ j : Job, j.status ≠ .running → resetRunning j = j) ∧
      (∀ j : Job, (resetRunning j).attempt = j.attempt ∧
        (resetRunning j).id = j.id) ∧
      List.Sorted byCreatedAt (recover store).2 := by
  intro store
  have hperm :
      List.Perm
        (List.insertionSort byCreatedAt
          (listByStatus store .queued ++ listByStatus store .running))
        (listByStatus store .queued ++ listByStatus store .running) :=
    List.perm_insertionSort _ _
  refine ⟨?_, ?_, rfl, ?_, ?_, ?_, ?_⟩
  · intro j hj hst
    have hmem : j ∈ listByStatus store .queued ++ listByStatus store .running := by
      rcases hst with h | h
      · exact List.mem_append_left _ (by simp [listByStatus, List.mem_filter, hj, h])
      · exact List.mem_append_right _ (by simp [listByStatus, List.mem_filter, hj, h])
    have h2 : j ∈ (recover store).2 := hperm.mem_iff.mpr hmem
    exact ⟨h2, List.mem_map_of_mem _ h2⟩
  · intro j hj
    have hmem := hperm.mem_iff.mp hj
    rcases List.mem_append.mp hmem with h | h
    · have := List.mem_filter.mp h
      exact ⟨this.1, Or.inl (by simpa using this.2)⟩
    · have := List.mem_filter.mp h
      exact ⟨this.1, Or.inr (by simpa using this.2)⟩
  · intro j h
    simp [resetRunning, h]
  · intro j h
    simp [resetRunning, h]
  · intro j
    unfold resetRunning
    split <;> simp
  · exact List.sorted_insertionSort byCreatedAt _

/-- Witness for C5 on a concrete store with one `Queued` and one `Running`
job: the queued job survives into the recovered set and the rebuilt queue. -/
theorem recover_no_job_lost_witness :
    (⟨1, "k", "p", .queued, 0, 3, none, 5⟩ : Job) ∈
        (recover [⟨1, "k", "p", .queued, 0, 3, none, 5⟩,
          ⟨2, "k", "p", .running, 1, 3, none, 3⟩]).2 ∧
      (⟨1, "k", "p", .queued, 0, 3, none, 5⟩ : Job).id ∈
        recoverQueue [⟨1, "k", "p", .queued, 0, 3, none, 5⟩,
          ⟨2, "k", "p", .running, 1, 3, none, 3⟩] :=
  (recover_no_job_lost
      [⟨1, "k", "p", .queued, 0, 3, none, 5⟩,
        ⟨2, "k", "p", .running, 1, 3, none, 3⟩]).1
    ⟨1, "k", "p", .queued, 0, 3, none, 5⟩ (by simp) (Or.inl rfl)

/-- Every engine step preserves the lease invariant. -/
theorem LeaseInv.step {s t : EngState} (h : EStep s t) (hs : LeaseInv s) :
    LeaseInv t := by
  cases h with
  | enq id hq hl =>
    refine ⟨hs.1, ?_, ?_⟩
    · simp only [List.nodup_append, List.nodup_cons, List.not_mem_nil,
        not_false_iff, List.nodup_nil, and_true, List.disjoint_singleton]
      exact ⟨hs.2.1, trivial, hq⟩
    · intro id' hid' w hw
      rcases List.mem_append.mp hid' with h1 | h1
      · exact hs.2.2 id' h1 w hw
      · have : id' = id := by simpa using h1
        subst this
        exact hl w hw
  | deq w id rest hqe =>
    have hidq : id ∈ s.queue := by rw [hqe]; exact List.mem_cons_self id rest
    have hrest : id ∉ rest ∧ rest.Nodup := by
      have := hs.2.1
      rw [hqe, List.nodup_cons] at this
      exact this
    refine ⟨?_, hrest.2, ?_⟩
    · simp only [List.map_cons, List.nodup_cons]
      refine ⟨?_, hs.1⟩
      intro hmem
      obtain ⟨p, hp, hpe⟩ := List.mem_map.mp hmem
      obtain ⟨pw, pj⟩ := p
      simp only at hpe
      rw [hpe] at hp
      exact hs.2.2 id hidq pw hp
    · intro id' hid' w' hw'
      rcases List.mem_cons.mp hw' with h1 | h1
      · have : id' = id := congrArg Prod.snd h1
        subst this
        exact hrest.1 hid'
      · exact hs.2.2 id' (by rw [hqe]; exact List.mem_cons_of_mem id hid') w' h1
  | release w id =>
    refine ⟨?_, hs.2.1, ?_⟩
    · exact List.Nodup.sublist ((List.filter_sublist _).map Prod.snd) hs.1
    · intro id' hid' w' hw'
      have := (List.mem_filter.mp hw').1
      exact hs.2.2 id' hid' w' this

/-- In a lease list whose job ids are pairwise distinct, one job id is held
by at most one worker. -/
theorem lease_unique_of_nodup :
    ∀ l : List (Nat × Nat), (l.map Prod.snd).Nodup →
      ∀ w₁ w₂ j, (w₁, j) ∈ l → (w₂, j) ∈ l → w₁ = w₂ := by
  intro l
  induction l with
  | nil => simp
  | cons p t ih =>
    intro hn w₁ w₂ j h₁ h₂
    simp only [List.map_cons, List.nodup_cons] at hn
    rcases List.mem_cons.mp h₁ with e₁ | m₁
    · rcases List.mem_cons.mp h₂ with e₂ | m₂
      · rw [← e₂] at e₁
        exact (Prod.ext_iff.mp e₁).1
      · exfalso
        apply hn.1
        rw [← e₁]
        exact List.mem_map.mpr ⟨(w₂, j), m₂, rfl⟩
    · rcases List.mem_cons.mp h₂ with e₂ | m₂
      · exfalso
        apply hn.1
        rw [← e₂]
        exact List.mem_map.mpr ⟨(w₁, j), m₁, rfl⟩
      · exact ih hn.2 w₁ w₂ j m₁ m₂

/-- C1: in every state the engine can reach from startup, at most one worker
holds the lease for a given job id — two leases on the same id belong to the
same worker. -/
theorem at_most_one_lease :
    ∀ s : EngState, Reachable s →
      ∀ w₁ w₂ j, (w₁, j) ∈ s.leases → (w₂, j) ∈ s.leases → w₁ = w₂ := by
  intro s hs
  have hinv : LeaseInv s := by
    induction hs with
    | refl =>
      exact ⟨by simp [EngState.init], by simp [EngState.init],
        by simp [EngState.init]⟩
    | tail _ hstep ih => exact LeaseInv.step hstep ih
  exact lease_unique_of_nodup s.leases hinv.1

/-- Witness for C1: a concrete reachable state in which worker 0 leases job
5 — the two memberships are discharged concretely and force equality. -/
theorem at_most_one_lease_witness : (0 : Nat) = 0 :=
  at_most_one_lease ⟨[], [(0, 5)]⟩
    (Relation.ReflTransGen.head
      (EStep.enq EngState.init 5 (by simp [EngState.init])
        (by simp [EngState.init]))
      (Relation.ReflTransGen.single (EStep.deq ⟨[5], []⟩ 0 5 [] rfl)))
    0 0 5 (by simp) (by simp)

/-- C10: `helloHandler` is deterministic and ignores its request argument —
any two invocations write the same output, the line `"Hello World"` followed
by a newline. -/
theorem helloHandler_deterministic :
    ∀ r₁ r₂ : HTTPRequest,
      helloHandler r₁ = helloHandler r₂ ∧ helloHandler r₁ = "Hello World\n" :=
  fun _ _ => ⟨rfl, rfl⟩

end Orc
